import Mathlib

/-!
Shallow embedding of the eww daemon's reactive state and lifecycle
coordinator (`src/app.rs`): the command dispatcher (`App::handle_command`),
window registry (`open_windows`), variable reference bookkeeping
(`eww_state`), and the producer start/stop instructions issued to the
script-var handler.  Stateful Rust methods become pure functions returning
the mutated state together with the list of instructions sent to external
collaborators; fallible methods return `Except`.
-/

namespace Eww

abbrev VarName := String
abbrev WindowName := String
abbrev PrimitiveValue := String
abbrev AnchorPoint := String

structure Coords where
  x : Int
  y : Int
deriving DecidableEq, Repr

/-- Modelled from the spec: the window geometry carried by a window
definition, over which `OpenWindow` overrides are applied
(`EwwWindowGeometry` lives in the `config` module, outside `src/`). -/
structure EwwWindowGeometry where
  anchor_point : AnchorPoint
  offset : Coords
  size : Coords
deriving DecidableEq, Repr

/-- Modelled from the spec: "apply geometry overrides" — each component is
replaced when the corresponding override is given. -/
def EwwWindowGeometry.override_if_given (g : EwwWindowGeometry)
    (anchor : Option AnchorPoint) (pos : Option Coords) (size : Option Coords) :
    EwwWindowGeometry :=
  { anchor_point := anchor.getD g.anchor_point
    offset := pos.getD g.offset
    size := size.getD g.size }

/-- A window definition from the configuration.  The widget tree is
represented by the list of variable names it references (`widget_vars`),
and the outcome of the external widget-builder collaborator on this
definition by `build_ok` (modelled from the spec:
`build(...) -> WidgetTree or BuildError`). -/
structure EwwWindowDefinition where
  name : WindowName
  geometry : EwwWindowGeometry
  widget_vars : List VarName
  build_ok : Bool
deriving DecidableEq, Repr

structure EwwConfig where
  windows : List (WindowName × EwwWindowDefinition)
  script_vars : List VarName
deriving DecidableEq, Repr

def EwwConfig.get_window (c : EwwConfig) (w : WindowName) : Option EwwWindowDefinition :=
  (c.windows.find? (fun e => e.1 == w)).map Prod.snd

/-- `eww_config.get_script_var(v).ok()` succeeds exactly for variables
backed by a script producer. -/
def EwwConfig.is_script_var (c : EwwConfig) (v : VarName) : Bool :=
  c.script_vars.contains v

/-- A live `WindowInstance`: the registry value stored in `open_windows`.
The native gtk handle is represented only through the trace events. -/
structure EwwWindow where
  name : WindowName
  definition : EwwWindowDefinition
deriving DecidableEq, Repr

/-- The size reported back by the native toolkit for a freshly created
window: `window.get_default_size()` right after
`window.set_default_size(700, 700)` yields the default size just set. -/
def gtk_default_size : Coords := ⟨700, 700⟩

/-- `initialize_window`: creates and configures the native window, then —
"handle the fact that the gtk window will have a different size than
specified" — overwrites the definition's geometry size with the size the
toolkit reports (`window.get_default_size()`), and stores that mutated
definition in the `EwwWindow`.  The backend calls themselves only touch
the native collaborator; their possible failures are folded into the
definition's `build_ok` flag together with the widget build. -/
def initialize_window (window_def : EwwWindowDefinition) : EwwWindow :=
  let window_def :=
    { window_def with
        geometry := { window_def.geometry with size := gtk_default_size } }
  { name := window_def.name, definition := window_def }

/-- Modelled from the spec: `eww_state::EwwState` (outside `src/`) —
per-window cached variable reference sets plus the variable value store. -/
structure EwwState where
  window_states : List (WindowName × List VarName)
  variable_values : List (VarName × PrimitiveValue)
deriving DecidableEq, Repr

/-- Modelled from the spec: `referenced_by(window_name)` — the cached set of
variable names used in that window's widget tree. -/
def EwwState.vars_referenced_in (s : EwwState) (w : WindowName) : List VarName :=
  ((s.window_states.find? (fun e => e.1 == w)).map Prod.snd).getD []

/-- Modelled from the spec: `clear_window_state(window_name)` drops the
cached reference set for that window. -/
def EwwState.clear_window_state (s : EwwState) (w : WindowName) : EwwState :=
  { s with window_states := s.window_states.filter (fun e => e.1 != w) }

def EwwState.clear_all_window_states (s : EwwState) : EwwState :=
  { s with window_states := [] }

/-- Modelled from the spec: registering, at window-open time, the variable
references computed from the resolved widget tree (done by the widget
builder writing into `eww_state`). -/
def EwwState.set_window_state (s : EwwState) (w : WindowName) (vars : List VarName) : EwwState :=
  { s with window_states := (w, vars) :: s.window_states.filter (fun e => e.1 != w) }

/-- Modelled from the spec: Variable Store `set(name, value)` — "fails if no
window currently references `name`"; otherwise stores the new value. -/
def EwwState.update_variable (s : EwwState) (name : VarName) (value : PrimitiveValue) :
    Except String EwwState :=
  if s.window_states.any (fun e => e.2.contains name) then
    .ok { s with variable_values := (name, value) :: s.variable_values.filter (fun e => e.1 != name) }
  else
    .error ("Tried to update unreferenced variable " ++ name)

/-- An instruction issued to an external collaborator, in program order:
producer start/stop (script-var handler), registry bookkeeping, native
window close, stylesheet load. -/
inductive Event where
  | start (v : VarName)
  | stop (v : VarName)
  | stopAll
  | removeRegistry (w : WindowName)
  | insertRegistry (w : WindowName)
  | closeHandle (w : WindowName)
  | loadCss (css : String)
deriving DecidableEq, Repr

inductive DaemonResponse where
  | Success (s : String)
  | Failure (s : String)
deriving DecidableEq, Repr

/-- `App` minus the external handles: variable state, configuration and the
open-window registry. -/
structure App where
  eww_state : EwwState
  eww_config : EwwConfig
  open_windows : List (WindowName × EwwWindow)
deriving DecidableEq, Repr

def App.init (config : EwwConfig) : App :=
  { eww_state := { window_states := [], variable_values := [] }
    eww_config := config
    open_windows := [] }

def App.open_names (app : App) : List WindowName :=
  app.open_windows.map Prod.fst

/-- The list of open windows whose cached reference set contains `v` — the
per-variable window list built by `App::currently_used_variables`. -/
def App.windows_using (app : App) (v : VarName) : List WindowName :=
  (app.open_windows.filter
    (fun e => (app.eww_state.vars_referenced_in e.1).contains v)).map Prod.fst

/-- The key set of `App::currently_used_variables`: every variable
referenced by at least one open window. -/
def App.currently_used_vars (app : App) : List VarName :=
  (app.open_windows.foldr
    (fun e acc => app.eww_state.vars_referenced_in e.1 ++ acc) []).dedup

/-- `App::variables_only_used_in`: variables whose window list has length
one and contains the given window. -/
def App.variables_only_used_in (app : App) (w : WindowName) : List VarName :=
  app.currently_used_vars.filter
    (fun v => (app.windows_using v).length == 1 && (app.windows_using v).contains w)

/-- `App::close_window`: stop the producers of the variables used only by
this window, then remove the registry entry (failing if absent), close the
native handle and clear the window's cached references. -/
def App.close_window (app : App) (w : WindowName) :
    Except String Unit × App × List Event :=
  let unused := app.variables_only_used_in w
  let stops := unused.map Event.stop
  if app.open_names.contains w then
    let app1 : App := { app with open_windows := app.open_windows.filter (fun e => e.1 != w) }
    let app2 : App := { app1 with eww_state := app1.eww_state.clear_window_state w }
    (.ok (), app2, stops ++ [Event.removeRegistry w, Event.closeHandle w])
  else
    (.error ("No window with name " ++ w ++ " is running."), app, stops)

/-- `App::open_window`: close any existing window of the same name
(ignoring failure), resolve the definition, apply geometry overrides,
build the widget tree (registering its variable references), register the
instance, and start producers for the script variables now used only by
this window. -/
def App.open_window (app : App) (w : WindowName)
    (pos : Option Coords) (size : Option Coords) (anchor : Option AnchorPoint) :
    Except String Unit × App × List Event :=
  let r0 := app.close_window w
  let app1 := r0.2.1
  let ev1 := r0.2.2
  match app1.eww_config.get_window w with
  | none => (.error ("No window named " ++ w ++ " exists"), app1, ev1)
  | some def0 =>
    let window_def : EwwWindowDefinition :=
      { def0 with geometry := def0.geometry.override_if_given anchor pos size }
    if window_def.build_ok then
      let app2 : App :=
        { app1 with eww_state := app1.eww_state.set_window_state w window_def.widget_vars }
      let eww_window := initialize_window window_def
      let app3 : App :=
        { app2 with open_windows :=
            (w, eww_window) :: app2.open_windows.filter (fun e => e.1 != w) }
      let started := (app3.variables_only_used_in w).filter
        (fun v => app3.eww_config.is_script_var v)
      (.ok (), app3, ev1 ++ [Event.insertRegistry w] ++ started.map Event.start)
    else
      (.error ("Error building widgets for window " ++ w), app1, ev1)

/-- The reopen loop of `App::load_config`: close each previously-open
window's native handle and reopen it; the `?` operator propagates the
first failure, aborting the rest of the loop. -/
def App.reopen_windows (app : App) :
    List (WindowName × EwwWindow) → Except String Unit × App × List Event
  | [] => (.ok (), app, [])
  | (wn, _) :: rest =>
    match App.open_window app wn none none none with
    | (.ok _, app1, ev1) =>
      let r := App.reopen_windows app1 rest
      (r.1, r.2.1, Event.closeHandle wn :: (ev1 ++ r.2.2))
    | (.error e, app1, ev1) => (.error e, app1, Event.closeHandle wn :: ev1)

/-- `App::load_config`: stop all producers, swap in the new configuration,
clear every per-window reference cache, then reopen the previously-open
windows. -/
def App.load_config (app : App) (config : EwwConfig) :
    Except String Unit × App × List Event :=
  let app1 : App :=
    { app with eww_config := config
               eww_state := app.eww_state.clear_all_window_states }
  let r := App.reopen_windows app1 app1.open_windows
  (r.1, r.2.1, Event.stopAll :: r.2.2)

/-- `App::update_state`: delegate to the variable store. -/
def App.update_state (app : App) (n : VarName) (v : PrimitiveValue) : Except String App :=
  match app.eww_state.update_variable n v with
  | .ok s => .ok { app with eww_state := s }
  | .error e => .error e

/-- The `UpdateVars` loop: apply each pair in order through
`update_state`, short-circuiting at the first failure (the state reached
so far is kept). -/
def App.handle_update_vars (app : App) :
    List (VarName × PrimitiveValue) → Except String Unit × App
  | [] => (.ok (), app)
  | (n, v) :: rest =>
    match App.update_state app n v with
    | .ok app1 => App.handle_update_vars app1 rest
    | .error e => (.error e, app)

/-- The `OpenMany` body: `windows.iter().map(open_window).collect::<Result<()>>()`
— laziness of `map` plus short-circuiting `collect` stop at the first
failing open. -/
def App.open_many (app : App) : List WindowName → Except String Unit × App × List Event
  | [] => (.ok (), app, [])
  | w :: rest =>
    match App.open_window app w none none none with
    | (.ok _, app1, ev1) =>
      let r := App.open_many app1 rest
      (r.1, r.2.1, ev1 ++ r.2.2)
    | (.error e, app1, ev1) => (.error e, app1, ev1)

/-- The `CloseAll` loop over a snapshot of the open window names. -/
def App.close_windows_list (app : App) :
    List WindowName → Except String Unit × App × List Event
  | [] => (.ok (), app, [])
  | w :: rest =>
    match App.close_window app w with
    | (.ok _, app1, ev1) =>
      let r := App.close_windows_list app1 rest
      (r.1, r.2.1, ev1 ++ r.2.2)
    | (.error e, app1, ev1) => (.error e, app1, ev1)

/-- `respond_with_error`: `Success("")` for `Ok`, `Failure(message)` for `Err`. -/
def respond_with_error (r : Except String Unit) : DaemonResponse :=
  match r with
  | .ok _ => .Success ""
  | .error e => .Failure e

/-- The daemon command alphabet (`DaemonCommand`); response senders are
represented by the returned `Option DaemonResponse`. -/
inductive DaemonCommand where
  | NoOp
  | UpdateVars (mappings : List (VarName × PrimitiveValue))
  | ReloadConfigAndCss
  | UpdateConfig (config : EwwConfig)
  | UpdateCss (css : String)
  | OpenMany (windows : List WindowName)
  | OpenWindow (window_name : WindowName) (pos : Option Coords)
      (size : Option Coords) (anchor : Option AnchorPoint)
  | CloseWindow (window_name : WindowName)
  | CloseAll
deriving DecidableEq, Repr

/-- Modelled from the spec: the outcomes of the configuration-file and
stylesheet parsing collaborators (`read_from_file` /
`parse_scss_from_file`). -/
structure ParseEnv where
  config_result : Except String EwwConfig
  css_result : Except String String
deriving Repr

/-- `App::handle_command`: one dispatcher step.  Errors escaping a branch
are caught at the dispatch boundary (`print_result_err`), so the function
is total; the third component is the response sent on the command's
channel, when it has one. -/
def App.handle_command (app : App) (env : ParseEnv) :
    DaemonCommand → App × List Event × Option DaemonResponse
  | .NoOp => (app, [], none)
  | .UpdateVars mappings =>
    let r := App.handle_update_vars app mappings
    (r.2, [], none)
  | .ReloadConfigAndCss =>
    let s1 : List String × App × List Event :=
      match env.config_result with
      | .ok c =>
        let r := App.load_config app c
        ([], r.2.1, r.2.2)
      | .error e => ([e], app, [])
    let s2 : List String × App × List Event :=
      match env.css_result with
      | .ok css => ([], s1.2.1, [Event.loadCss css])
      | .error e => ([e], s1.2.1, [])
    let errors := s1.1 ++ s2.1
    let response :=
      if errors.isEmpty then DaemonResponse.Success ""
      else DaemonResponse.Failure (String.intercalate "\n" errors)
    (s2.2.1, s1.2.2 ++ s2.2.2, some response)
  | .UpdateConfig config =>
    let r := App.load_config app config
    (r.2.1, r.2.2, none)
  | .UpdateCss css => (app, [Event.loadCss css], none)
  | .OpenMany windows =>
    let r := App.open_many app windows
    (r.2.1, r.2.2, some (respond_with_error r.1))
  | .OpenWindow w pos size anchor =>
    let r := App.open_window app w pos size anchor
    (r.2.1, r.2.2, some (respond_with_error r.1))
  | .CloseWindow w =>
    let r := App.close_window app w
    (r.2.1, r.2.2, some (respond_with_error r.1))
  | .CloseAll =>
    let r := App.close_windows_list app app.open_names
    (r.2.1, r.2.2, none)

/-- The script-var handler's reaction to one instruction: `add` is
idempotent, `stop_for_variable` removes the subscription, `stop_all`
clears everything; the other instructions address other collaborators. -/
def apply_event (active : List VarName) : Event → List VarName
  | .start v => if active.contains v then active else v :: active
  | .stop v => active.filter (fun x => x != v)
  | .stopAll => []
  | _ => active

def apply_events (active : List VarName) (es : List Event) : List VarName :=
  es.foldl apply_event active

/-- An open/close command as quantified over by the subscription
invariant. -/
inductive OCCommand where
  | openW (w : WindowName) (pos : Option Coords) (size : Option Coords)
      (anchor : Option AnchorPoint)
  | closeW (w : WindowName)
deriving DecidableEq, Repr

/-- Run a sequence of open/close commands, folding the emitted
instructions into the script-var handler's active-subscription set. -/
def App.run_oc (app : App) (active : List VarName) :
    List OCCommand → App × List VarName
  | [] => (app, active)
  | c :: rest =>
    let s : App × List Event :=
      match c with
      | .openW w pos size anchor =>
        let r := App.open_window app w pos size anchor
        (r.2.1, r.2.2)
      | .closeW w =>
        let r := App.close_window app w
        (r.2.1, r.2.2)
    App.run_oc s.1 (apply_events active s.2) rest

/-! ### Concrete fixtures used to exercise the model -/

def sample_geometry : EwwWindowGeometry :=
  { anchor_point := "top-left", offset := ⟨0, 0⟩, size := ⟨100, 100⟩ }

def def_a : EwwWindowDefinition :=
  { name := "a", geometry := sample_geometry, widget_vars := ["u"], build_ok := true }

def def_b : EwwWindowDefinition :=
  { name := "b", geometry := sample_geometry, widget_vars := ["v"], build_ok := true }

def def_b_bad : EwwWindowDefinition :=
  { name := "b", geometry := sample_geometry, widget_vars := ["v"], build_ok := false }

def def_bad : EwwWindowDefinition :=
  { name := "bad", geometry := sample_geometry, widget_vars := [], build_ok := false }

def def_good : EwwWindowDefinition :=
  { name := "good", geometry := sample_geometry, widget_vars := [], build_ok := true }

/-- Configuration with windows `a` (using script var `u`) and `b` (using
script var `v`). -/
def cfg_ab : EwwConfig :=
  { windows := [("a", def_a), ("b", def_b)], script_vars := ["u", "v"] }

/-- Like `cfg_ab` but the widget build for `b` fails. -/
def cfg_ab_bad : EwwConfig :=
  { windows := [("a", def_a), ("b", def_b_bad)], script_vars := ["u", "v"] }

/-- Configuration with a window whose build fails and one that succeeds. -/
def cfg_mixed : EwwConfig :=
  { windows := [("bad", def_bad), ("good", def_good)], script_vars := [] }

/-- A parse environment in which both collaborators fail (unused by the
commands that do not reload). -/
def env_none : ParseEnv := { config_result := .error "nocfg", css_result := .error "nocss" }

/-- The app state reached from the initial state by opening `a` then `b`
under `cfg_ab`. -/
def app_ab : App :=
  (((App.init cfg_ab).open_window "a" none none none).2.1.open_window
    "b" none none none).2.1

/-- `app_ab` after the variable update `u := "1"`. -/
def app_ab_u : App := (app_ab.handle_update_vars [("u", "1")]).2

def win_a : EwwWindow := initialize_window def_a

def win_b : EwwWindow := initialize_window def_b

/-- The intermediate state of `load_config` on `app_ab` with `cfg_ab_bad`,
right before the reopen loop: new configuration installed, reference
caches cleared. -/
def app_reload_start : App :=
  { app_ab with eww_config := cfg_ab_bad
                eww_state := app_ab.eww_state.clear_all_window_states }

/-! ### Basic list helpers -/

theorem ne_nil_iff_exists_mem {α : Type} (l : List α) : l ≠ [] ↔ ∃ a, a ∈ l := by
  constructor
  · intro h
    exact List.exists_mem_of_ne_nil l h
  · rintro ⟨a, ha⟩ rfl
    simp at ha

theorem mem_foldr_append {α β : Type} (f : α → List β) (l : List α) (b : β) :
    b ∈ l.foldr (fun e acc => f e ++ acc) [] ↔ ∃ a ∈ l, b ∈ f a := by
  induction l with
  | nil => simp
  | cons x xs ih => simp [List.foldr_cons, ih]

theorem map_fst_filter_comp {α β : Type} (q : α → Bool) (l : List (α × β)) :
    (l.filter (fun e => q e.1)).map Prod.fst = (l.map Prod.fst).filter q := by
  induction l with
  | nil => rfl
  | cons x xs ih =>
    by_cases h : q x.1 <;> simp [List.filter_cons, h, ih]

theorem find?_key_filter_ne {α : Type} {w x : String} (l : List (String × α)) (hxw : x ≠ w) :
    (l.filter (fun e => e.1 != w)).find? (fun e => e.1 == x) = l.find? (fun e => e.1 == x) := by
  induction l with
  | nil => rfl
  | cons a as ih =>
    rw [List.filter_cons]
    by_cases haw : a.1 = w
    · have h1 : (a.1 != w) = false := by simp [haw]
      rw [h1, if_neg (by decide)]
      have hax : ¬ ((a.1 == x) = true) := by
        simp only [beq_iff_eq, haw]
        exact fun h => hxw h.symm
      rw [List.find?_cons_of_neg (p := fun (e : String × α) => e.1 == x) _ hax, ih]
    · have h1 : (a.1 != w) = true := by simp [haw]
      rw [h1, if_pos rfl]
      by_cases hax : (a.1 == x) = true
      · rw [List.find?_cons_of_pos (p := fun (e : String × α) => e.1 == x) _ hax,
          List.find?_cons_of_pos (p := fun (e : String × α) => e.1 == x) _ hax]
      · rw [List.find?_cons_of_neg (p := fun (e : String × α) => e.1 == x) _ hax,
          List.find?_cons_of_neg (p := fun (e : String × α) => e.1 == x) _ hax, ih]

theorem find?_key_filter_self {α : Type} (w : String) (l : List (String × α)) :
    (l.filter (fun e => e.1 != w)).find? (fun e => e.1 == w) = none := by
  rw [List.find?_eq_none]
  intro e he
  have := (List.mem_filter.mp he).2
  simp only [bne_iff_ne, ne_eq] at this
  simp [this]

theorem filter_key_eq_self {α : Type} {w : String} (l : List (String × α))
    (h : w ∉ l.map Prod.fst) : l.filter (fun e => e.1 != w) = l := by
  rw [List.filter_eq_self]
  intro e he
  have : e.1 ≠ w := by
    intro hew
    exact h (List.mem_map.mpr ⟨e, he, hew⟩)
  simp [this]

/-! ### Script-var handler semantics -/

theorem apply_events_append (active : List VarName) (es fs : List Event) :
    apply_events active (es ++ fs) = apply_events (apply_events active es) fs :=
  List.foldl_append _ _ _ _

theorem mem_apply_stops (active : List VarName) (l : List VarName) (v : VarName) :
    v ∈ apply_events active (l.map Event.stop) ↔ v ∈ active ∧ v ∉ l := by
  induction l generalizing active with
  | nil => simp [apply_events]
  | cons x xs ih =>
    simp only [List.map_cons, apply_events, List.foldl_cons] at *
    rw [show (apply_event active (Event.stop x)) = active.filter (fun y => y != x) from rfl] at *
    rw [ih]
    simp only [List.mem_filter, bne_iff_ne, ne_eq, List.mem_cons]
    tauto

theorem mem_apply_starts (active : List VarName) (l : List VarName) (v : VarName) :
    v ∈ apply_events active (l.map Event.start) ↔ v ∈ active ∨ v ∈ l := by
  induction l generalizing active with
  | nil => simp [apply_events]
  | cons x xs ih =>
    simp only [List.map_cons, apply_events, List.foldl_cons] at *
    rw [show (apply_event active (Event.start x)) =
        if active.contains x then active else x :: active from rfl]
    by_cases hx : active.contains x
    · rw [if_pos hx, ih]
      have : x ∈ active := List.elem_iff.mp hx
      simp only [List.mem_cons]
      constructor
      · tauto
      · rintro (h | rfl | h) <;> tauto
    · rw [if_neg hx, ih]
      simp only [List.mem_cons]
      tauto

theorem apply_events_registry (active : List VarName) (w : WindowName) :
    apply_events active [Event.removeRegistry w, Event.closeHandle w] = active := rfl

theorem apply_events_insert (active : List VarName) (w : WindowName) :
    apply_events active [Event.insertRegistry w] = active := rfl

/-! ### Characterizations of the reference-counting helpers -/

theorem mem_open_names (app : App) (w : WindowName) :
    w ∈ app.open_names ↔ ∃ e ∈ app.open_windows, e.1 = w := by
  simp [App.open_names, List.mem_map]

theorem mem_windows_using (app : App) (v : VarName) (x : WindowName) :
    x ∈ app.windows_using v ↔
      x ∈ app.open_names ∧ v ∈ app.eww_state.vars_referenced_in x := by
  unfold App.windows_using
  rw [map_fst_filter_comp (fun y => (app.eww_state.vars_referenced_in y).contains v)
    app.open_windows]
  rw [List.mem_filter]
  simp [App.open_names, List.elem_iff]

theorem windows_using_sub_open_names (app : App) (v : VarName) (x : WindowName)
    (h : x ∈ app.windows_using v) : x ∈ app.open_names :=
  ((mem_windows_using app v x).mp h).1

theorem nodup_windows_using (app : App) (v : VarName) (hwf : app.open_names.Nodup) :
    (app.windows_using v).Nodup := by
  unfold App.windows_using
  rw [map_fst_filter_comp (fun y => (app.eww_state.vars_referenced_in y).contains v)
    app.open_windows]
  exact hwf.filter _

theorem mem_currently_used_vars (app : App) (v : VarName) :
    v ∈ app.currently_used_vars ↔
      ∃ w ∈ app.open_names, v ∈ app.eww_state.vars_referenced_in w := by
  unfold App.currently_used_vars
  rw [List.mem_dedup, mem_foldr_append]
  constructor
  · rintro ⟨e, he, hv⟩
    exact ⟨e.1, (mem_open_names app e.1).mpr ⟨e, he, rfl⟩, hv⟩
  · rintro ⟨w, hw, hv⟩
    obtain ⟨e, he, rfl⟩ := (mem_open_names app w).mp hw
    exact ⟨e, he, hv⟩

theorem currently_used_vars_iff_windows_using (app : App) (v : VarName) :
    v ∈ app.currently_used_vars ↔ app.windows_using v ≠ [] := by
  rw [mem_currently_used_vars, ne_nil_iff_exists_mem]
  constructor
  · rintro ⟨w, hw, hv⟩
    exact ⟨w, (mem_windows_using app v w).mpr ⟨hw, hv⟩⟩
  · rintro ⟨w, hw⟩
    obtain ⟨h1, h2⟩ := (mem_windows_using app v w).mp hw
    exact ⟨w, h1, h2⟩

theorem mem_variables_only_used_in (app : App) (w : WindowName) (v : VarName) :
    v ∈ app.variables_only_used_in w ↔ app.windows_using v = [w] := by
  unfold App.variables_only_used_in
  rw [List.mem_filter]
  constructor
  · rintro ⟨_, hcond⟩
    have hc := Bool.and_elim_left hcond
    have hm := Bool.and_elim_right hcond
    have hlen : (app.windows_using v).length = 1 := by simpa using hc
    obtain ⟨a, ha⟩ := List.length_eq_one.mp hlen
    have : w ∈ app.windows_using v := List.elem_iff.mp hm
    rw [ha] at this ⊢
    simp only [List.mem_singleton] at this
    rw [this]
  · intro h
    refine ⟨?_, ?_⟩
    · rw [currently_used_vars_iff_windows_using, h]
      simp
    · rw [h]
      simp

theorem nodup_variables_only_used_in (app : App) (w : WindowName) :
    (app.variables_only_used_in w).Nodup :=
  (List.nodup_dedup _).filter _

theorem variables_only_used_in_not_open (app : App) (w : WindowName)
    (h : w ∉ app.open_names) : app.variables_only_used_in w = [] := by
  unfold App.variables_only_used_in
  rw [List.filter_eq_nil_iff]
  intro v _
  intro hcond
  have hm := Bool.and_elim_right hcond
  exact h (windows_using_sub_open_names app v w (List.elem_iff.mp hm))

/-! ### Effect of the state mutations on the cached references -/

theorem vars_referenced_in_clear (s : EwwState) (w x : WindowName) :
    (s.clear_window_state w).vars_referenced_in x =
      if x = w then [] else s.vars_referenced_in x := by
  by_cases h : x = w
  · subst h
    simp only [if_pos rfl]
    unfold EwwState.clear_window_state EwwState.vars_referenced_in
    rw [find?_key_filter_self]
    rfl
  · simp only [if_neg h]
    unfold EwwState.clear_window_state EwwState.vars_referenced_in
    rw [find?_key_filter_ne _ h]

theorem vars_referenced_in_set (s : EwwState) (w x : WindowName) (vs : List VarName) :
    (s.set_window_state w vs).vars_referenced_in x =
      if x = w then vs else s.vars_referenced_in x := by
  by_cases h : x = w
  · subst h
    simp [EwwState.set_window_state, EwwState.vars_referenced_in, List.find?_cons,
      beq_self_eq_true]
  · simp only [if_neg h]
    unfold EwwState.set_window_state EwwState.vars_referenced_in
    have hxw : (w == x) = false := by
      simp only [beq_eq_false_iff_ne, ne_eq]
      exact fun hc => h hc.symm
    rw [List.find?_cons_of_neg (p := fun (e : String × List VarName) => e.1 == x) _ (by simp [hxw])]
    rw [find?_key_filter_ne _ h]

/-! ### Structural equations for close_window -/

theorem close_window_not_open_eq (app : App) (w : WindowName) (h : w ∉ app.open_names) :
    app.close_window w =
      (.error ("No window with name " ++ w ++ " is running."), app, []) := by
  unfold App.close_window
  have hc : ¬ (app.open_names.contains w = true) := fun hh => h (List.elem_iff.mp hh)
  rw [variables_only_used_in_not_open app w h]
  rw [if_neg hc]
  rfl

theorem close_window_open_eq (app : App) (w : WindowName) (h : w ∈ app.open_names) :
    app.close_window w =
      (.ok (), { eww_state := app.eww_state.clear_window_state w
                 eww_config := app.eww_config
                 open_windows := app.open_windows.filter (fun e => e.1 != w) },
       (app.variables_only_used_in w).map Event.stop ++
         [Event.removeRegistry w, Event.closeHandle w]) := by
  unfold App.close_window
  have hc : app.open_names.contains w = true := List.elem_iff.mpr h
  rw [if_pos hc]

theorem close_window_config (app : App) (w : WindowName) :
    (app.close_window w).2.1.eww_config = app.eww_config := by
  by_cases h : w ∈ app.open_names
  · rw [close_window_open_eq app w h]
  · rw [close_window_not_open_eq app w h]

theorem not_open_after_close (app : App) (w : WindowName) :
    w ∉ (app.close_window w).2.1.open_names := by
  by_cases h : w ∈ app.open_names
  · rw [close_window_open_eq app w h]
    simp only [App.open_names]
    rw [map_fst_filter_comp (fun x => x != w) app.open_windows]
    intro hmem
    have := (List.mem_filter.mp hmem).2
    simp at this
  · rw [close_window_not_open_eq app w h]
    exact h

/-! ### The subscription invariant -/

/-- I1: the set of active producer subscriptions equals the set of
script variables referenced by at least one open window. -/
def Inv (app : App) (active : List VarName) : Prop :=
  ∀ v, v ∈ active ↔
    (v ∈ app.eww_config.script_vars ∧
      ∃ w ∈ app.open_names, v ∈ app.eww_state.vars_referenced_in w)

theorem nodup_exists_ne {α : Type} (l : List α) (hl : l.Nodup) (w : α) :
    ((∃ x, x ∈ l) ∧ l ≠ [w]) ↔ ∃ x ∈ l, x ≠ w := by
  constructor
  · rintro ⟨⟨x, hx⟩, hne⟩
    cases l with
    | nil => simp at hx
    | cons a t =>
      cases t with
      | nil =>
        have hx' : x = a := by simpa using hx
        subst hx'
        exact ⟨x, by simp, fun hxw => hne (by rw [hxw])⟩
      | cons b t2 =>
        by_cases haw : a = w
        · subst haw
          have hb : b ≠ a := by
            have hcons := List.nodup_cons.mp hl
            intro hba
            exact hcons.1 (by rw [hba]; simp)
          exact ⟨b, by simp, hb⟩
        · exact ⟨a, by simp, haw⟩
  · rintro ⟨x, hx, hxw⟩
    refine ⟨⟨x, hx⟩, ?_⟩
    intro hlw
    rw [hlw] at hx
    simp only [List.mem_singleton] at hx
    exact hxw hx

theorem close_window_inv (app : App) (active : List VarName) (w : WindowName)
    (hwf : app.open_names.Nodup) (hinv : Inv app active) :
    Inv (app.close_window w).2.1 (apply_events active (app.close_window w).2.2) ∧
      (app.close_window w).2.1.open_names.Nodup := by
  by_cases hw : w ∈ app.open_names
  · rw [close_window_open_eq app w hw]
    refine ⟨?_, ?_⟩
    · intro v
      rw [apply_events_append, apply_events_registry, mem_apply_stops]
      have hA := hinv v
      have hl := nodup_exists_ne (app.windows_using v) (nodup_windows_using app v hwf) w
      have hunused := mem_variables_only_used_in app w v
      have hnames : ∀ x : WindowName,
          (x ∈ App.open_names { eww_state := app.eww_state.clear_window_state w
                                eww_config := app.eww_config
                                open_windows := app.open_windows.filter (fun e => e.1 != w) })
            ↔ x ∈ app.open_names ∧ x ≠ w := by
        intro x
        simp only [App.open_names]
        rw [map_fst_filter_comp (fun y => y != w) app.open_windows]
        rw [List.mem_filter]
        simp [App.open_names]
      constructor
      · rintro ⟨hv, hnu⟩
        obtain ⟨hscript, hR⟩ := hA.mp hv
        have hex : ∃ x, x ∈ app.windows_using v := by
          obtain ⟨x, hx1, hx2⟩ := hR
          exact ⟨x, (mem_windows_using app v x).mpr ⟨hx1, hx2⟩⟩
        have hne : app.windows_using v ≠ [w] := fun hh => hnu (hunused.mpr hh)
        obtain ⟨x, hx, hxw⟩ := hl.mp ⟨hex, hne⟩
        obtain ⟨hx1, hx2⟩ := (mem_windows_using app v x).mp hx
        refine ⟨hscript, x, (hnames x).mpr ⟨hx1, hxw⟩, ?_⟩
        rw [vars_referenced_in_clear, if_neg hxw]
        exact hx2
      · rintro ⟨hscript, x, hx, hvx⟩
        obtain ⟨hx1, hxw⟩ := (hnames x).mp hx
        rw [vars_referenced_in_clear, if_neg hxw] at hvx
        have hxu : x ∈ app.windows_using v := (mem_windows_using app v x).mpr ⟨hx1, hvx⟩
        refine ⟨hA.mpr ⟨hscript, x, hx1, hvx⟩, ?_⟩
        intro hmem
        have heq := hunused.mp hmem
        rw [heq] at hxu
        simp only [List.mem_singleton] at hxu
        exact hxw hxu
    · simp only [App.open_names]
      rw [map_fst_filter_comp (fun y => y != w) app.open_windows]
      exact hwf.filter _
  · rw [close_window_not_open_eq app w hw]
    exact ⟨hinv, hwf⟩

/-! ### Effect of registering a fresh window on the reference counts -/

theorem windows_using_insert (app1 : App) (c : EwwConfig) (w : WindowName)
    (win : EwwWindow) (vs : List VarName) (hw : w ∉ app1.open_names) (v : VarName) :
    App.windows_using
      { eww_state := app1.eww_state.set_window_state w vs
        eww_config := c
        open_windows := (w, win) :: app1.open_windows } v =
      (if vs.contains v then [w] else []) ++ app1.windows_using v := by
  have hne : ∀ e ∈ app1.open_windows, e.1 ≠ w := by
    intro e he hew
    exact hw ((mem_open_names app1 w).mpr ⟨e, he, hew⟩)
  have htail :
      List.filter
        (fun e : WindowName × EwwWindow =>
          ((app1.eww_state.set_window_state w vs).vars_referenced_in e.1).contains v)
        app1.open_windows =
      List.filter
        (fun e : WindowName × EwwWindow =>
          (app1.eww_state.vars_referenced_in e.1).contains v)
        app1.open_windows := by
    apply List.filter_congr
    intro e he
    rw [vars_referenced_in_set, if_neg (hne e he)]
  unfold App.windows_using
  rw [List.filter_cons]
  have hhead :
      (((app1.eww_state.set_window_state w vs).vars_referenced_in (w, win).1).contains v) =
        vs.contains v := by
    rw [vars_referenced_in_set]
    simp
  by_cases hv : vs.contains v = true
  · rw [hhead, if_pos hv, if_pos hv, List.map_cons, htail]
    rfl
  · rw [hhead, if_neg hv, if_neg hv, htail]
    rfl

theorem only_used_in_insert (app1 : App) (c : EwwConfig) (w : WindowName)
    (win : EwwWindow) (vs : List VarName) (hw : w ∉ app1.open_names) (v : VarName) :
    (v ∈ App.variables_only_used_in
      { eww_state := app1.eww_state.set_window_state w vs
        eww_config := c
        open_windows := (w, win) :: app1.open_windows } w) ↔
      (v ∈ vs ∧ app1.windows_using v = []) := by
  rw [mem_variables_only_used_in, windows_using_insert app1 c w win vs hw v]
  by_cases hv : vs.contains v = true
  · rw [if_pos hv]
    have hv' : v ∈ vs := List.elem_iff.mp hv
    simp only [List.cons_append, List.nil_append, List.cons.injEq]
    constructor
    · rintro ⟨_, h2⟩
      exact ⟨hv', h2⟩
    · rintro ⟨_, h2⟩
      exact ⟨trivial, h2⟩
  · rw [if_neg hv]
    have hv' : v ∉ vs := fun hm => hv (List.elem_iff.mpr hm)
    simp only [List.nil_append]
    constructor
    · intro heq
      exfalso
      have : w ∈ app1.windows_using v := by rw [heq]; simp
      exact hw (windows_using_sub_open_names app1 v w this)
    · rintro ⟨hmem, _⟩
      exact absurd hmem hv'

theorem windows_using_nil_iff (app : App) (v : VarName) :
    app.windows_using v = [] ↔
      ¬ ∃ x ∈ app.open_names, v ∈ app.eww_state.vars_referenced_in x := by
  constructor
  · intro h hex
    obtain ⟨x, hx1, hx2⟩ := hex
    have : x ∈ app.windows_using v := (mem_windows_using app v x).mpr ⟨hx1, hx2⟩
    rw [h] at this
    simp at this
  · intro h
    by_contra hne
    obtain ⟨x, hx⟩ := (ne_nil_iff_exists_mem _).mp hne
    obtain ⟨hx1, hx2⟩ := (mem_windows_using app v x).mp hx
    exact h ⟨x, hx1, hx2⟩

theorem open_window_inv (app : App) (active : List VarName) (w : WindowName)
    (pos size : Option Coords) (anchor : Option AnchorPoint)
    (hwf : app.open_names.Nodup) (hinv : Inv app active) :
    Inv (app.open_window w pos size anchor).2.1
        (apply_events active (app.open_window w pos size anchor).2.2) ∧
      (app.open_window w pos size anchor).2.1.open_names.Nodup := by
  obtain ⟨hinv1, hwf1⟩ := close_window_inv app active w hwf hinv
  have hnot1 := not_open_after_close app w
  set app1 := (app.close_window w).2.1 with happ1
  set A1 := apply_events active (app.close_window w).2.2 with hA1
  unfold App.open_window
  cases hg : app1.eww_config.get_window w with
  | none =>
    simp only [← happ1, hg]
    exact ⟨hinv1, hwf1⟩
  | some def0 =>
    simp only [← happ1, hg]
    by_cases hb : ({ def0 with
        geometry := def0.geometry.override_if_given anchor pos size } :
          EwwWindowDefinition).build_ok = true
    · rw [if_pos hb]
      simp only []
      have hfilter : app1.open_windows.filter (fun e => e.1 != w) = app1.open_windows :=
        filter_key_eq_self app1.open_windows hnot1
      set wd : EwwWindowDefinition :=
        { def0 with geometry := def0.geometry.override_if_given anchor pos size } with hwd
      set win : EwwWindow := initialize_window wd with hwin
      rw [hfilter]
      constructor
      · intro v
        rw [apply_events_append, apply_events_append, apply_events_insert,
          mem_apply_starts]
        have hA := hinv1 v
        have hRHS : (∃ x ∈ (w :: app1.open_names),
              v ∈ (app1.eww_state.set_window_state w def0.widget_vars).vars_referenced_in x) ↔
            (v ∈ def0.widget_vars ∨
              ∃ x ∈ app1.open_names, v ∈ app1.eww_state.vars_referenced_in x) := by
          constructor
          · rintro ⟨x, hx, hvx⟩
            rcases List.mem_cons.mp hx with rfl | hx1
            · left
              rwa [vars_referenced_in_set, if_pos rfl] at hvx
            · right
              have hxw : x ≠ w := fun hh => hnot1 (hh ▸ hx1)
              rw [vars_referenced_in_set, if_neg hxw] at hvx
              exact ⟨x, hx1, hvx⟩
          · rintro (hv | ⟨x, hx1, hvx⟩)
            · refine ⟨w, by simp, ?_⟩
              rw [vars_referenced_in_set, if_pos rfl]
              exact hv
            · have hxw : x ≠ w := fun hh => hnot1 (hh ▸ hx1)
              refine ⟨x, by simp [hx1], ?_⟩
              rw [vars_referenced_in_set, if_neg hxw]
              exact hvx
        have hstartmem : v ∈ List.filter (fun v => app1.eww_config.is_script_var v)
              (App.variables_only_used_in
                { eww_state := app1.eww_state.set_window_state w def0.widget_vars
                  eww_config := app1.eww_config
                  open_windows := (w, win) :: app1.open_windows } w) ↔
            (v ∈ app1.eww_config.script_vars ∧ v ∈ def0.widget_vars ∧
              app1.windows_using v = []) := by
          rw [List.mem_filter,
            only_used_in_insert app1 app1.eww_config w win def0.widget_vars hnot1 v]
          unfold EwwConfig.is_script_var
          rw [List.elem_iff]
          tauto
        constructor
        · intro hmem
          show v ∈ app1.eww_config.script_vars ∧
            ∃ x ∈ (w :: app1.open_names),
              v ∈ (app1.eww_state.set_window_state w def0.widget_vars).vars_referenced_in x
          rcases hmem with h1 | h2
          · obtain ⟨hs, hr⟩ := hA.mp h1
            exact ⟨hs, hRHS.mpr (Or.inr hr)⟩
          · obtain ⟨hs, hv, _⟩ := hstartmem.mp h2
            exact ⟨hs, hRHS.mpr (Or.inl hv)⟩
        · intro hmem
          replace hmem : v ∈ app1.eww_config.script_vars ∧
              ∃ x ∈ (w :: app1.open_names),
                v ∈ (app1.eww_state.set_window_state w def0.widget_vars).vars_referenced_in x :=
            hmem
          obtain ⟨hs, hr⟩ := hmem
          rcases hRHS.mp hr with hv | hr1
          · by_cases hrs : ∃ x ∈ app1.open_names, v ∈ app1.eww_state.vars_referenced_in x
            · left
              exact hA.mpr ⟨hs, hrs⟩
            · right
              exact hstartmem.mpr ⟨hs, hv, (windows_using_nil_iff app1 v).mpr hrs⟩
          · left
            exact hA.mpr ⟨hs, hr1⟩
      · show (w :: app1.open_names).Nodup
        exact List.nodup_cons.mpr ⟨hnot1, hwf1⟩
    · rw [if_neg hb]
      exact ⟨hinv1, hwf1⟩

/-! ### Invariant preservation over command sequences -/

theorem open_window_config (app : App) (w : WindowName)
    (pos size : Option Coords) (anchor : Option AnchorPoint) :
    (app.open_window w pos size anchor).2.1.eww_config = app.eww_config := by
  unfold App.open_window
  cases hg : (app.close_window w).2.1.eww_config.get_window w with
  | none =>
    simp only [hg]
    exact close_window_config app w
  | some def0 =>
    simp only [hg]
    by_cases hb : ({ def0 with
        geometry := def0.geometry.override_if_given anchor pos size } :
          EwwWindowDefinition).build_ok = true
    · rw [if_pos hb]
      exact close_window_config app w
    · rw [if_neg hb]
      exact close_window_config app w

theorem run_oc_inv (cmds : List OCCommand) (app : App) (active : List VarName)
    (hwf : app.open_names.Nodup) (hinv : Inv app active) :
    Inv (app.run_oc active cmds).1 (app.run_oc active cmds).2 ∧
      (app.run_oc active cmds).1.open_names.Nodup := by
  induction cmds generalizing app active with
  | nil => exact ⟨hinv, hwf⟩
  | cons c rest ih =>
    cases c with
    | openW w pos size anchor =>
      obtain ⟨h1, h2⟩ := open_window_inv app active w pos size anchor hwf hinv
      simp only [App.run_oc]
      exact ih _ _ h2 h1
    | closeW w =>
      obtain ⟨h1, h2⟩ := close_window_inv app active w hwf hinv
      simp only [App.run_oc]
      exact ih _ _ h2 h1

theorem run_oc_config (cmds : List OCCommand) (app : App) (active : List VarName) :
    (app.run_oc active cmds).1.eww_config = app.eww_config := by
  induction cmds generalizing app active with
  | nil => rfl
  | cons c rest ih =>
    cases c with
    | openW w pos size anchor =>
      simp only [App.run_oc]
      rw [ih]
      exact open_window_config app w pos size anchor
    | closeW w =>
      simp only [App.run_oc]
      rw [ih]
      exact close_window_config app w

/-! ### Counting simultaneously active producers along a trace -/

/-- One producer-subsystem step under spawn/kill semantics: a start
instruction spawns one more producer for the variable, a stop (or stopAll)
kills every producer for it; other instructions address other
collaborators. -/
def producer_step (v : VarName) (n : Nat) : Event → Nat
  | .start x => if x == v then n + 1 else n
  | .stop x => if x == v then 0 else n
  | .stopAll => 0
  | _ => n

/-- Number of producers for `v` that are alive after executing the trace,
starting from `n` alive. -/
def producer_count (n : Nat) (v : VarName) (t : List Event) : Nat :=
  t.foldl (producer_step v) n

theorem producer_count_append (n : Nat) (v : VarName) (s t : List Event) :
    producer_count n v (s ++ t) = producer_count (producer_count n v s) v t :=
  List.foldl_append _ _ _ _

theorem producer_count_le_of_no_start (v : VarName) (t : List Event)
    (h : ∀ e ∈ t, e ≠ Event.start v) : ∀ n, producer_count n v t ≤ n := by
  induction t with
  | nil => intro n; exact Nat.le_refl n
  | cons e es ih =>
    intro n
    have hstep : producer_step v n e ≤ n := by
      cases e with
      | start x =>
        have : Event.start x ≠ Event.start v := h _ (by simp)
        have hx : ¬ ((x == v) = true) := by
          intro hx
          exact this (by rw [beq_iff_eq.mp hx])
        simp only [producer_step]
        rw [if_neg hx]
      | stop x =>
        simp only [producer_step]
        by_cases hx : (x == v) = true
        · rw [if_pos hx]; exact Nat.zero_le n
        · rw [if_neg hx]
      | stopAll => exact Nat.zero_le n
      | removeRegistry _ => exact Nat.le_refl n
      | insertRegistry _ => exact Nat.le_refl n
      | closeHandle _ => exact Nat.le_refl n
      | loadCss _ => exact Nat.le_refl n
    calc producer_count n v (e :: es) = producer_count (producer_step v n e) v es := rfl
      _ ≤ producer_step v n e := ih (fun x hx => h x (by simp [hx])) _
      _ ≤ n := hstep

theorem producer_count_stops_mem (v : VarName) (l : List VarName) (hv : v ∈ l) :
    ∀ n, producer_count n v (l.map Event.stop) = 0 := by
  induction l with
  | nil => simp at hv
  | cons x xs ih =>
    intro n
    by_cases hx : (x == v) = true
    · have h0 : producer_step v n (Event.stop x) = 0 := by
        simp only [producer_step]
        rw [if_pos hx]
      have hle := producer_count_le_of_no_start v (xs.map Event.stop)
        (by rintro e he; obtain ⟨y, _, rfl⟩ := List.mem_map.mp he; simp) 0
      calc producer_count n v ((x :: xs).map Event.stop)
          = producer_count (producer_step v n (Event.stop x)) v (xs.map Event.stop) := rfl
        _ = producer_count 0 v (xs.map Event.stop) := by rw [h0]
        _ = 0 := Nat.le_zero.mp hle
    · have hvxs : v ∈ xs := by
        rcases List.mem_cons.mp hv with rfl | hvv
        · exact absurd (beq_iff_eq.mpr rfl) hx
        · exact hvv
      calc producer_count n v ((x :: xs).map Event.stop)
          = producer_count (producer_step v n (Event.stop x)) v (xs.map Event.stop) := rfl
        _ = 0 := ih hvxs _

theorem producer_count_le_add_starts (v : VarName) (t : List Event) :
    ∀ n, producer_count n v t ≤ n + t.count (Event.start v) := by
  induction t with
  | nil => intro n; simp [producer_count]
  | cons e es ih =>
    intro n
    have hc : (e :: es).count (Event.start v) =
        es.count (Event.start v) + (if e = Event.start v then 1 else 0) := by
      by_cases he : e = Event.start v
      · rw [List.count_cons, if_pos he]
        simp [he]
      · rw [List.count_cons, if_neg he]
        have : ¬ ((e == Event.start v) = true) := fun hb => he (beq_iff_eq.mp hb)
        simp [this]
    have hstep : producer_step v n e ≤ n + (if e = Event.start v then 1 else 0) := by
      cases e with
      | start x =>
        simp only [producer_step]
        by_cases hx : (x == v) = true
        · rw [if_pos hx, if_pos (by rw [beq_iff_eq.mp hx])]
        · rw [if_neg hx, if_neg (fun hh : Event.start x = Event.start v => hx
            (beq_iff_eq.mpr (by injection hh)))]
          exact Nat.le_add_right n 0
      | stop x =>
        simp only [producer_step]
        by_cases hx : (x == v) = true
        · rw [if_pos hx]; exact Nat.zero_le _
        · rw [if_neg hx]; exact Nat.le_add_right n _
      | stopAll => exact Nat.zero_le _
      | removeRegistry _ => exact Nat.le_add_right n _
      | insertRegistry _ => exact Nat.le_add_right n _
      | closeHandle _ => exact Nat.le_add_right n _
      | loadCss _ => exact Nat.le_add_right n _
    calc producer_count n v (e :: es)
        = producer_count (producer_step v n e) v es := rfl
      _ ≤ producer_step v n e + es.count (Event.start v) := ih _
      _ ≤ (n + (if e = Event.start v then 1 else 0)) + es.count (Event.start v) :=
          Nat.add_le_add_right hstep _
      _ = n + (e :: es).count (Event.start v) := by rw [hc]; omega

theorem count_start_map (l : List VarName) (v : VarName) :
    (l.map Event.start).count (Event.start v) = l.count v := by
  induction l with
  | nil => rfl
  | cons x xs ih =>
    by_cases hx : x = v
    · subst hx
      simp [List.count_cons, ih]
    · have h1 : ¬ ((Event.start x == Event.start v) = true) := by
        intro hb
        exact hx (by injection (beq_iff_eq.mp hb))
      have h2 : ¬ ((x == v) = true) := fun hb => hx (beq_iff_eq.mp hb)
      simp [List.count_cons, h1, h2, ih]

theorem no_start_in_stops (v : VarName) (l : List VarName) :
    ∀ e ∈ l.map Event.stop, e ≠ Event.start v := by
  rintro e he
  obtain ⟨y, _, rfl⟩ := List.mem_map.mp he
  simp

/-- The core stop-before-start safety property of a trace of the shape
`stops ++ rest`: when the stopped set contains `v` and `rest` starts `v` at
most once, every start of `v` is preceded by a stop of `v`, and no prefix
ever has more than one producer for `v` alive (starting from one alive). -/
theorem trace_stop_start_safe (l : List VarName) (rest : List Event) (v : VarName)
    (hv : v ∈ l) (hcnt : rest.count (Event.start v) ≤ 1) :
    (∀ p q, (l.map Event.stop) ++ rest = p ++ Event.start v :: q →
      Event.stop v ∈ p) ∧
    (∀ p q, (l.map Event.stop) ++ rest = p ++ q → producer_count 1 v p ≤ 1) := by
  have hstopmem : Event.stop v ∈ l.map Event.stop :=
    List.mem_map.mpr ⟨v, hv, rfl⟩
  constructor
  · intro p q hsplit
    rcases List.append_eq_append_iff.mp hsplit with ⟨a, ha1, _⟩ | ⟨c, hc1, hc2⟩
    · -- p = stops ++ a
      rw [ha1]
      exact List.mem_append.mpr (Or.inl hstopmem)
    · -- stops = p ++ c and start v :: q = c ++ rest
      cases c with
      | nil =>
        rw [List.append_nil] at hc1
        rw [← hc1]
        exact hstopmem
      | cons hd tl =>
        exfalso
        have hhd : hd = Event.start v := by
          have := hc2
          rw [List.cons_append] at this
          injection this with h1 _
          exact h1.symm
        have hmem : hd ∈ l.map Event.stop := by
          rw [hc1]
          simp
        exact no_start_in_stops v l hd hmem hhd
  · intro p q hsplit
    rcases List.append_eq_append_iff.mp hsplit with ⟨a, ha1, ha2⟩ | ⟨c, hc1, _⟩
    · -- p runs past the stops: p = stops ++ a with rest = a ++ q
      rw [ha1, producer_count_append, producer_count_stops_mem v l hv 1]
      have h1 := producer_count_le_add_starts v a 0
      have h2 : a.count (Event.start v) ≤ rest.count (Event.start v) := by
        rw [ha2, List.count_append]
        exact Nat.le_add_right _ _
      omega
    · -- p stays inside the stops: stops = p ++ c
      have hsub : ∀ e ∈ p, e ≠ Event.start v := by
        intro e he
        apply no_start_in_stops v l
        rw [hc1]
        exact List.mem_append.mpr (Or.inl he)
      exact producer_count_le_of_no_start v p hsub 1

/-- The instruction trace of `open_window` is the close trace, followed (on
a successful build) by the registry insertion and the start instructions
for a duplicate-free list of variables. -/
theorem open_window_trace (app : App) (w : WindowName)
    (pos size : Option Coords) (anchor : Option AnchorPoint) :
    (app.open_window w pos size anchor).2.2 = (app.close_window w).2.2 ∨
    ∃ started : List VarName, started.Nodup ∧
      (app.open_window w pos size anchor).2.2 =
        (app.close_window w).2.2 ++ [Event.insertRegistry w] ++
          started.map Event.start := by
  unfold App.open_window
  cases hg : (app.close_window w).2.1.eww_config.get_window w with
  | none =>
    simp only [hg]
    exact Or.inl trivial
  | some def0 =>
    simp only [hg]
    by_cases hb : ({ def0 with
        geometry := def0.geometry.override_if_given anchor pos size } :
          EwwWindowDefinition).build_ok = true
    · rw [if_pos hb]
      refine Or.inr ⟨_, ?_, rfl⟩
      exact (nodup_variables_only_used_in _ w).filter _
    · rw [if_neg hb]
      exact Or.inl rfl

/-- C5: within a close-then-reopen of the same window name `W`
(`OpenWindow` issued while `W` is open), the stop instruction for each
variable used only by `W` is issued before any start instruction for it,
and at no intermediate point of the emitted instruction trace are two
producers simultaneously alive for such a variable (starting from the one
active producer). -/
theorem C5_reopen_stop_before_start (app : App) (w : WindowName)
    (pos size : Option Coords) (anchor : Option AnchorPoint) (v : VarName)
    (h : v ∈ app.variables_only_used_in w) :
    (∀ p q, (app.open_window w pos size anchor).2.2 = p ++ Event.start v :: q →
      Event.stop v ∈ p) ∧
    (∀ p q, (app.open_window w pos size anchor).2.2 = p ++ q →
      producer_count 1 v p ≤ 1) := by
  have hw : w ∈ app.open_names := by
    have heq := (mem_variables_only_used_in app w v).mp h
    exact windows_using_sub_open_names app v w (by rw [heq]; simp)
  have hclose := close_window_open_eq app w hw
  rcases open_window_trace app w pos size anchor with htr | ⟨started, hnd, htr⟩
  · have htr' : (app.open_window w pos size anchor).2.2 =
        ((app.variables_only_used_in w).map Event.stop) ++
          [Event.removeRegistry w, Event.closeHandle w] := by
      rw [htr, hclose]
    have hsafe := trace_stop_start_safe (app.variables_only_used_in w)
      [Event.removeRegistry w, Event.closeHandle w] v h (by simp [List.count_cons])
    exact ⟨fun p q hpq => hsafe.1 p q (by rw [← htr']; exact hpq),
      fun p q hpq => hsafe.2 p q (by rw [← htr']; exact hpq)⟩
  · have htr' : (app.open_window w pos size anchor).2.2 =
        ((app.variables_only_used_in w).map Event.stop) ++
          ([Event.removeRegistry w, Event.closeHandle w, Event.insertRegistry w] ++
            started.map Event.start) := by
      rw [htr, hclose]
      simp
    have h1 : ([Event.removeRegistry w, Event.closeHandle w,
        Event.insertRegistry w] : List Event).count (Event.start v) = 0 := by
      simp [List.count_cons]
    have hcnt : ([Event.removeRegistry w, Event.closeHandle w, Event.insertRegistry w] ++
        started.map Event.start).count (Event.start v) ≤ 1 := by
      rw [List.count_append, count_start_map, h1]
      have hle := List.nodup_iff_count_le_one.mp hnd v
      omega
    have hsafe := trace_stop_start_safe (app.variables_only_used_in w) _ v h hcnt
    exact ⟨fun p q hpq => hsafe.1 p q (by rw [← htr']; exact hpq),
      fun p q hpq => hsafe.2 p q (by rw [← htr']; exact hpq)⟩

/-! ### Shared structural lemmas for the dispatcher commands -/

theorem reopen_windows_config (l : List (WindowName × EwwWindow)) (app : App) :
    (App.reopen_windows app l).2.1.eww_config = app.eww_config := by
  induction l generalizing app with
  | nil => rfl
  | cons hd rest ih =>
    obtain ⟨wn, win⟩ := hd
    have hcfg := open_window_config app wn none none none
    rcases ho : App.open_window app wn none none none with ⟨r1, app1, ev1⟩
    rw [ho] at hcfg
    cases r1 with
    | ok u =>
      simp only [App.reopen_windows, ho]
      rw [ih app1]
      exact hcfg
    | error e =>
      simp only [App.reopen_windows, ho]
      exact hcfg

theorem load_config_eww_config (app : App) (config : EwwConfig) :
    (app.load_config config).2.1.eww_config = config := by
  show (App.reopen_windows
      { app with eww_config := config
                 eww_state := app.eww_state.clear_all_window_states }
      app.open_windows).2.1.eww_config = config
  rw [reopen_windows_config]

theorem handle_update_vars_append_ok (l1 : List (VarName × PrimitiveValue))
    (app a1 : App) (tail : List (VarName × PrimitiveValue))
    (h : app.handle_update_vars l1 = (.ok (), a1)) :
    app.handle_update_vars (l1 ++ tail) = a1.handle_update_vars tail := by
  induction l1 generalizing app with
  | nil =>
    simp only [App.handle_update_vars] at h
    injection h with _ h2
    rw [List.nil_append, h2]
  | cons p rest ih =>
    obtain ⟨n, val⟩ := p
    simp only [App.handle_update_vars] at h ⊢
    cases hu : app.update_state n val with
    | ok app' =>
      rw [hu] at h
      exact ih app' h
    | error e =>
      rw [hu] at h
      exact absurd (congrArg Prod.fst h) (by simp)

theorem filter_key_eq_after_ne {β : Type} (l : List (String × β)) (w : String) :
    (l.filter (fun e => e.1 != w)).filter (fun e => e.1 == w) = [] := by
  rw [List.filter_filter, List.filter_eq_nil_iff]
  intro e _
  by_cases h : e.1 = w
  · simp [h]
  · simp [h]

/-! ### Claim theorems -/

/-- C1: for every sequence of OpenWindow/CloseWindow commands executed
from the initial state, at the quiescent point after the sequence a
producer subscription is active for a variable exactly when it is a
producer-backed (script) variable referenced by at least one currently
open window. -/
theorem C1_subscription_invariant (config : EwwConfig) (cmds : List OCCommand)
    (v : VarName) :
    v ∈ ((App.init config).run_oc [] cmds).2 ↔
      (v ∈ config.script_vars ∧
        ∃ w ∈ ((App.init config).run_oc [] cmds).1.open_names,
          v ∈ ((App.init config).run_oc [] cmds).1.eww_state.vars_referenced_in w) := by
  have h0 : Inv (App.init config) [] := by
    intro x
    simp [App.init, App.open_names, Inv]
  have hwf0 : (App.init config).open_names.Nodup := by
    simp [App.init, App.open_names]
  have h := (run_oc_inv cmds (App.init config) [] hwf0 h0).1 v
  have hc := run_oc_config cmds (App.init config) []
  rw [hc] at h
  exact h

/-- C2 counterexample: with windows `a` and `b` open and a new
configuration under which `b`'s rebuild fails (and `b` is reached first in
the reopen loop), `load_config` fails and `a` — whose own rebuild under
the new configuration succeeds — is never reopened: no registry insertion
for `a` is ever issued. -/
theorem C2_counterexample :
    (App.load_config app_ab cfg_ab_bad).1 =
        Except.error "Error building widgets for window b" ∧
      Event.insertRegistry "a" ∉ (App.load_config app_ab cfg_ab_bad).2.2 ∧
      (App.open_window (App.init cfg_ab_bad) "a" none none none).1 = Except.ok () := by
  refine ⟨rfl, ?_, rfl⟩
  decide

/-- C2 amended: in the reopen loop of `load_config`, a failure to reopen
one window aborts the loop — the windows after it in iteration order are
not reopened (the `?` operator propagates the first failure). -/
theorem C2_reload_short_circuits (app app1 : App) (w : WindowName) (win : EwwWindow)
    (rest : List (WindowName × EwwWindow)) (e : String) (ev1 : List Event)
    (h : App.open_window app w none none none = (.error e, app1, ev1)) :
    App.reopen_windows app ((w, win) :: rest) =
      (.error e, app1, Event.closeHandle w :: ev1) := by
  simp only [App.reopen_windows, h]

/-- C3 counterexample: `OpenMany ["bad", "good"]` from the initial state
leaves nothing open even though opening `good` on its own succeeds — the
failure of `bad` prevents `good` from being attempted. -/
theorem C3_counterexample :
    (App.open_window (App.init cfg_mixed) "good" none none none).1 = Except.ok () ∧
      ((App.init cfg_mixed).handle_command env_none
        (.OpenMany ["bad", "good"])).1.open_names = [] ∧
      ((App.init cfg_mixed).handle_command env_none (.OpenMany ["bad", "good"])).2.2 =
        some (DaemonResponse.Failure "Error building widgets for window bad") :=
  ⟨rfl, rfl, rfl⟩

/-- C3 amended: `OpenMany` attempts `open_window` on each name in list
order up to and including the first failure; the names after the first
failing one are not attempted (`collect::<Result<()>>` short-circuits over
the lazy `map`); the response is `Success("")` when all opens succeed and
a `Failure` carrying the first error otherwise. -/
theorem C3_open_many_short_circuits (app app1 : App) (w : WindowName)
    (rest : List WindowName) (e : String) (ev1 : List Event) (env : ParseEnv)
    (h : App.open_window app w none none none = (.error e, app1, ev1)) :
    App.open_many app (w :: rest) = (.error e, app1, ev1) ∧
    (app.handle_command env (.OpenMany (w :: rest))).2.2 =
      some (DaemonResponse.Failure e) ∧
    (∀ ws : List WindowName, (App.open_many app ws).1 = Except.ok () →
      (app.handle_command env (.OpenMany ws)).2.2 =
        some (DaemonResponse.Success "")) := by
  refine ⟨?_, ?_, ?_⟩
  · simp only [App.open_many, h]
  · show some (respond_with_error (App.open_many app (w :: rest)).1) = _
    simp only [App.open_many, h]
    rfl
  · intro ws hws
    show some (respond_with_error (App.open_many app ws).1) = _
    rw [hws]
    rfl

/-- C4 counterexample: reopening the already-open `b` with an explicit
size override of `50 × 50` succeeds and leaves one registry entry for
`b`, but the instance stored there is *not* the second invocation's
override-applied definition: `initialize_window` has overwritten its
geometry size with the toolkit-reported `700 × 700` before registration,
so the caller's size parameter does not survive into the registry. -/
theorem C4_counterexample :
    (app_ab.open_window "b" none (some ⟨50, 50⟩) none).1 = Except.ok () ∧
    (app_ab.open_window "b" none (some ⟨50, 50⟩) none).2.1.open_windows.filter
        (fun e => e.1 == "b") ≠
      [("b", { name := def_b.name,
               definition :=
                 { def_b with
                     geometry :=
                       def_b.geometry.override_if_given none none (some ⟨50, 50⟩) } })] ∧
    (app_ab.open_window "b" none (some ⟨50, 50⟩) none).2.1.open_windows.filter
        (fun e => e.1 == "b") =
      [("b", initialize_window
        { def_b with
            geometry := def_b.geometry.override_if_given none none (some ⟨50, 50⟩) })] := by
  refine ⟨rfl, ?_, rfl⟩
  decide

/-- C4 amended: issuing `OpenWindow(N)` while `N` is already open leaves
exactly one registry entry named `N`, and the instance stored there is the
one built by the second invocation: the definition with the second call's
geometry overrides applied, whose geometry size `initialize_window` then
overwrites with the size reported by the native toolkit before
registration. -/
theorem C4_idempotent_open (app : App) (w : WindowName) (pos size : Option Coords)
    (anchor : Option AnchorPoint) (d : EwwWindowDefinition)
    (_hopen : w ∈ app.open_names)
    (hget : app.eww_config.get_window w = some d)
    (hbuild : ({ d with geometry := d.geometry.override_if_given anchor pos size } :
        EwwWindowDefinition).build_ok = true) :
    (app.open_window w pos size anchor).1 = Except.ok () ∧
    (app.open_window w pos size anchor).2.1.open_windows.filter (fun e => e.1 == w) =
      [(w, initialize_window
        { d with geometry := d.geometry.override_if_given anchor pos size })] := by
  have hg2 : (app.close_window w).2.1.eww_config.get_window w = some d := by
    rw [close_window_config]
    exact hget
  unfold App.open_window
  simp only [hg2]
  rw [if_pos hbuild]
  refine ⟨rfl, ?_⟩
  show List.filter (fun e => e.1 == w)
      ((w, initialize_window
          { d with geometry := d.geometry.override_if_given anchor pos size }) ::
        List.filter (fun e => e.1 != w) (app.close_window w).2.1.open_windows) = _
  rw [List.filter_cons]
  rw [if_pos (by simp)]
  rw [filter_key_eq_after_ne]

/-- C6: for `ReloadConfigAndCss`, the config reload and the stylesheet
reload succeed or fail independently: a successful config parse is applied
(the configuration is swapped in) even when the stylesheet parse fails and
vice versa; the response is `Success("")` exactly when both parses
succeed, and otherwise a single `Failure` carrying the collected error
texts joined by newlines. -/
theorem C6_reload_config_and_css_independent (app : App) (c : EwwConfig)
    (css e1 e2 : String) :
    ((app.handle_command ⟨.ok c, .ok css⟩ .ReloadConfigAndCss).2.2 =
        some (DaemonResponse.Success "") ∧
      (app.handle_command ⟨.ok c, .ok css⟩ .ReloadConfigAndCss).1.eww_config = c ∧
      Event.loadCss css ∈ (app.handle_command ⟨.ok c, .ok css⟩ .ReloadConfigAndCss).2.1) ∧
    ((app.handle_command ⟨.ok c, .error e2⟩ .ReloadConfigAndCss).2.2 =
        some (DaemonResponse.Failure e2) ∧
      (app.handle_command ⟨.ok c, .error e2⟩ .ReloadConfigAndCss).1.eww_config = c) ∧
    ((app.handle_command ⟨.error e1, .ok css⟩ .ReloadConfigAndCss).2.2 =
        some (DaemonResponse.Failure e1) ∧
      Event.loadCss css ∈
        (app.handle_command ⟨.error e1, .ok css⟩ .ReloadConfigAndCss).2.1 ∧
      (app.handle_command ⟨.error e1, .ok css⟩ .ReloadConfigAndCss).1 = app) ∧
    (app.handle_command ⟨.error e1, .error e2⟩ .ReloadConfigAndCss).2.2 =
      some (DaemonResponse.Failure (e1 ++ "\n" ++ e2)) := by
  refine ⟨⟨rfl, ?_, ?_⟩, ⟨rfl, ?_⟩, ⟨rfl, ?_, rfl⟩, rfl⟩
  · exact load_config_eww_config app c
  · show Event.loadCss css ∈ (app.load_config c).2.2 ++ [Event.loadCss css]
    simp
  · exact load_config_eww_config app c
  · show Event.loadCss css ∈ ([] : List Event) ++ [Event.loadCss css]
    simp

/-- C7: `UpdateVars` applies the pairs in list order through the variable
store's `set`, short-circuiting at the first failing pair — no pair after
the first failing one is applied, the state reached is the one after the
successful pairs only — and the command sends no response. -/
theorem C7_update_vars_short_circuit (app a1 : App)
    (l1 l2 : List (VarName × PrimitiveValue)) (n : VarName) (val : PrimitiveValue)
    (e : String) (env : ParseEnv)
    (h1 : app.handle_update_vars l1 = (.ok (), a1))
    (h2 : a1.update_state n val = .error e) :
    app.handle_update_vars (l1 ++ (n, val) :: l2) = (.error e, a1) ∧
    (app.handle_command env (.UpdateVars (l1 ++ (n, val) :: l2))).1 = a1 ∧
    (app.handle_command env (.UpdateVars (l1 ++ (n, val) :: l2))).2.2 = none := by
  have hmain : app.handle_update_vars (l1 ++ (n, val) :: l2) = (.error e, a1) := by
    rw [handle_update_vars_append_ok l1 app a1 _ h1]
    simp only [App.handle_update_vars, h2]
  refine ⟨hmain, ?_, rfl⟩
  show (app.handle_update_vars (l1 ++ (n, val) :: l2)).2 = a1
  rw [hmain]

/-- C8: `close_window` on an open window issues the stop instructions for
every variable exclusively used by that window before the registry removal
and the native close instruction, and removes the registry entry; the
`CloseWindow` command on a window that is not open responds with a
`Failure`. -/
theorem C8_close_window_order_and_failure (app : App) (w : WindowName) (env : ParseEnv) :
    (w ∈ app.open_names →
      (app.close_window w).1 = Except.ok () ∧
      (app.close_window w).2.2 =
        (app.variables_only_used_in w).map Event.stop ++
          [Event.removeRegistry w, Event.closeHandle w] ∧
      w ∉ (app.close_window w).2.1.open_names) ∧
    (w ∉ app.open_names →
      (app.handle_command env (.CloseWindow w)).2.2 =
        some (DaemonResponse.Failure
          ("No window with name " ++ w ++ " is running."))) := by
  constructor
  · intro h
    rw [close_window_open_eq app w h]
    refine ⟨rfl, rfl, ?_⟩
    have := not_open_after_close app w
    rw [close_window_open_eq app w h] at this
    exact this
  · intro h
    show some (respond_with_error (app.close_window w).1) = _
    rw [close_window_not_open_eq app w h]
    rfl

/-- C9: `close_window` on a window that is not open is atomic: it returns
an error, issues no instruction at all (in particular no producer stop,
since `variables_only_used_in` of a non-open window is empty), and leaves
the application state — registry and per-window variable state —
unchanged. -/
theorem C9_close_window_error_atomic (app : App) (w : WindowName)
    (h : w ∉ app.open_names) :
    app.variables_only_used_in w = [] ∧
    app.close_window w =
      (.error ("No window with name " ++ w ++ " is running."), app, []) :=
  ⟨variables_only_used_in_not_open app w h, close_window_not_open_eq app w h⟩

/-- C10: `load_config` installs the new configuration and clears all
per-window reference caches before the reopen loop runs, and the swap is
not rolled back on failure: whatever the reopen loop returns, the
configuration field afterwards holds the new configuration. -/
theorem C10_load_config_installs_config (app : App) (config : EwwConfig) :
    (app.load_config config).2.1.eww_config = config ∧
    app.load_config config =
      ((App.reopen_windows
          { app with eww_config := config
                     eww_state := app.eww_state.clear_all_window_states }
          app.open_windows).1,
        (App.reopen_windows
          { app with eww_config := config
                     eww_state := app.eww_state.clear_all_window_states }
          app.open_windows).2.1,
        Event.stopAll ::
          (App.reopen_windows
            { app with eww_config := config
                       eww_state := app.eww_state.clear_all_window_states }
            app.open_windows).2.2) :=
  ⟨load_config_eww_config app config, rfl⟩

/-! ### Witnesses instantiating the hypothesis-bearing theorems -/

/-- Witness for the amended C2 at a concrete reload state: `b` fails first
and `a` is never processed. -/
theorem C2_reload_short_circuits_witness :
    App.reopen_windows app_reload_start [("b", win_b), ("a", win_a)] =
      (.error "Error building widgets for window b",
        (App.open_window app_reload_start "b" none none none).2.1,
        Event.closeHandle "b" ::
          (App.open_window app_reload_start "b" none none none).2.2) :=
  C2_reload_short_circuits app_reload_start
    ((App.open_window app_reload_start "b" none none none).2.1) "b" win_b
    [("a", win_a)] "Error building widgets for window b"
    ((App.open_window app_reload_start "b" none none none).2.2) rfl

/-- Witness for the amended C3 at a concrete state. -/
theorem C3_open_many_short_circuits_witness :
    App.open_many (App.init cfg_mixed) ["bad", "good"] =
      (.error "Error building widgets for window bad",
        (App.open_window (App.init cfg_mixed) "bad" none none none).2.1,
        (App.open_window (App.init cfg_mixed) "bad" none none none).2.2) ∧
    ((App.init cfg_mixed).handle_command env_none (.OpenMany ["bad", "good"])).2.2 =
      some (DaemonResponse.Failure "Error building widgets for window bad") ∧
    ((App.init cfg_mixed).handle_command env_none (.OpenMany ["good"])).2.2 =
      some (DaemonResponse.Success "") := by
  have h := C3_open_many_short_circuits (App.init cfg_mixed)
    ((App.open_window (App.init cfg_mixed) "bad" none none none).2.1) "bad" ["good"]
    "Error building widgets for window bad"
    ((App.open_window (App.init cfg_mixed) "bad" none none none).2.2) env_none rfl
  exact ⟨h.1, h.2.1, h.2.2 ["good"] rfl⟩

/-- Witness for the amended C4: reopening the already-open `b` in
`app_ab`. -/
theorem C4_idempotent_open_witness :
    (app_ab.open_window "b" none none none).1 = Except.ok () ∧
    (app_ab.open_window "b" none none none).2.1.open_windows.filter
        (fun e => e.1 == "b") =
      [("b", initialize_window
        { def_b with geometry := def_b.geometry.override_if_given none none none })] :=
  C4_idempotent_open app_ab "b" none none none def_b (by decide) rfl rfl

/-- Witness for C5 on the concrete reopen trace of `b` in `app_ab`. -/
theorem C5_reopen_stop_before_start_witness :
    Event.stop "v" ∈ ([Event.stop "v", Event.removeRegistry "b",
        Event.closeHandle "b", Event.insertRegistry "b"] : List Event) ∧
    producer_count 1 "v" [Event.stop "v", Event.removeRegistry "b",
        Event.closeHandle "b", Event.insertRegistry "b", Event.start "v"] ≤ 1 := by
  have h := C5_reopen_stop_before_start app_ab "b" none none none "v" (by decide)
  constructor
  · exact h.1 [Event.stop "v", Event.removeRegistry "b", Event.closeHandle "b",
      Event.insertRegistry "b"] [] rfl
  · exact h.2 [Event.stop "v", Event.removeRegistry "b", Event.closeHandle "b",
      Event.insertRegistry "b", Event.start "v"] [] rfl

/-- Witness for C7: `u := "1"` applies, `zz := "2"` fails, `v := "3"` is
never applied. -/
theorem C7_update_vars_short_circuit_witness :
    app_ab.handle_update_vars ([("u", "1")] ++ ("zz", "2") :: [("v", "3")]) =
      (.error "Tried to update unreferenced variable zz", app_ab_u) ∧
    (app_ab.handle_command env_none
        (.UpdateVars ([("u", "1")] ++ ("zz", "2") :: [("v", "3")]))).1 = app_ab_u ∧
    (app_ab.handle_command env_none
        (.UpdateVars ([("u", "1")] ++ ("zz", "2") :: [("v", "3")]))).2.2 = none :=
  C7_update_vars_short_circuit app_ab app_ab_u [("u", "1")] [("v", "3")] "zz" "2"
    "Tried to update unreferenced variable zz" env_none rfl rfl

/-- Witness for C8 on `app_ab`: closing the open `a` and the non-open `zz`. -/
theorem C8_close_window_order_and_failure_witness :
    ((app_ab.close_window "a").1 = Except.ok () ∧
      (app_ab.close_window "a").2.2 =
        (app_ab.variables_only_used_in "a").map Event.stop ++
          [Event.removeRegistry "a", Event.closeHandle "a"] ∧
      "a" ∉ (app_ab.close_window "a").2.1.open_names) ∧
    (app_ab.handle_command env_none (.CloseWindow "zz")).2.2 =
      some (DaemonResponse.Failure ("No window with name " ++ "zz" ++ " is running.")) :=
  ⟨(C8_close_window_order_and_failure app_ab "a" env_none).1 (by decide),
    (C8_close_window_order_and_failure app_ab "zz" env_none).2 (by decide)⟩

/-- Witness for C9: closing the non-open `zz` in `app_ab`. -/
theorem C9_close_window_error_atomic_witness :
    app_ab.variables_only_used_in "zz" = [] ∧
    app_ab.close_window "zz" =
      (.error ("No window with name " ++ "zz" ++ " is running."), app_ab, []) :=
  C9_close_window_error_atomic app_ab "zz" (by decide)

end Eww
